import Mathlib

/-!
Verification of `analyze_sequence.py` (yeast_analyzer).

The program slides a fixed-size window over a nucleotide sequence and, for
each window, reports the window midpoint position, the fraction of G/T
symbols, and the G/T count ratio.  We embed the core computation
(`calculate_stats`) and the validation logic of `main` as Lean functions:
sequences are lists of characters, the real-valued metrics are rationals
(exact division, as the spec's equations are exact), the process's fatal
validation exits are modelled by an `Except` error result, and the
existence of the input file is a boolean parameter.
-/

namespace YeastAnalyzer

/-- Python `range(0, stop, step)` specialised to a nonnegative start, as used
by the loop `for i in range(0, seq_length - window_size + 1, step_size)`:
it yields `start, start + step, …` while the value is below `stop`.  The
recursion is driven by a fuel parameter; `pyRange` supplies fuel
`stop.toNat`, which suffices because each iteration advances by at least 1.
For `step ≤ 0` the result is `[]` (the program only ever reaches the loop
with the values the caller passes; all claims below constrain `step ≥ 1`). -/
def pyRangeGo (fuel start : Nat) (stop : Int) (step : Nat) : List Nat :=
  match fuel with
  | 0 => []
  | fuel + 1 =>
    if (start : Int) < stop ∧ 0 < step then
      start :: pyRangeGo fuel (start + step) stop step
    else []

/-- Python `range(0, stop, step)` for a natural step. -/
def pyRange (stop : Int) (step : Nat) : List Nat :=
  pyRangeGo stop.toNat 0 stop step

/-- The window `sequence[i : i + window_size]` extracted in the loop body. -/
def window (sequence : List Char) (i window_size : Nat) : List Char :=
  (sequence.drop i).take window_size

/-- Python `window.count('G')`. -/
def g_count (w : List Char) : Nat := w.count 'G'

/-- Python `window.count('T')`. -/
def t_count (w : List Char) : Nat := w.count 'T'

/-- Python `gt_total = (g_count + t_count) / window_size` (true division). -/
def gt_total (g t window_size : Nat) : ℚ :=
  ((g + t : Nat) : ℚ) / (window_size : ℚ)

/-- Python `g_t_ratio = g_count / t_count if t_count > 0 else 0`. -/
def g_t_ratio (g t : Nat) : ℚ :=
  if 0 < t then (g : ℚ) / (t : ℚ) else 0

/-- The core engine `calculate_stats(sequence, window_size, step_size)`:
for each window start produced by
`range(0, seq_length - window_size + 1, step_size)` it records the midpoint
`i + window_size // 2`, the G+T fraction and the G/T ratio, returning the
three parallel lists `(positions, gt_totals, g_t_ratios)`. -/
def calculate_stats (sequence : List Char) (window_size step_size : Nat) :
    List Nat × List ℚ × List ℚ :=
  let seq_length := sequence.length
  let starts := pyRange ((seq_length : Int) - (window_size : Int) + 1) step_size
  (starts.map (fun i => i + window_size / 2),
   starts.map (fun i =>
     gt_total (g_count (window sequence i window_size))
       (t_count (window sequence i window_size)) window_size),
   starts.map (fun i =>
     g_t_ratio (g_count (window sequence i window_size))
       (t_count (window sequence i window_size))))

/-- Unfolding lemma: `pyRangeGo` is the arithmetic progression
`start, start + step, …` of the appropriate length, provided the fuel covers
the distance to `stop`. -/
theorem pyRangeGo_spec (step : Nat) (hstep : 0 < step) :
    ∀ (fuel start : Nat) (stop : Int), (stop - (start : Int)).toNat ≤ fuel →
      pyRangeGo fuel start stop step =
        (List.range (if (start : Int) < stop
            then (stop - 1 - (start : Int)).toNat / step + 1 else 0)).map
          (fun k => start + k * step) := by
  intro fuel
  induction fuel with
  | zero =>
    intro start stop hfuel
    have hns : ¬ ((start : Int) < stop) := by omega
    simp [pyRangeGo, hns]
  | succ fuel ih =>
    intro start stop hfuel
    by_cases hlt : (start : Int) < stop
    · rw [pyRangeGo]
      rw [if_pos ⟨hlt, hstep⟩]
      rw [ih (start + step) stop (by push_cast; omega)]
      by_cases hlt2 : ((start + step : Nat) : Int) < stop
      · rw [if_pos hlt2, if_pos hlt]
        have hA : (stop - 1 - ((start + step : Nat) : Int)).toNat
            = (stop - 1 - (start : Int)).toNat - step := by push_cast; omega
        have hge : step ≤ (stop - 1 - (start : Int)).toNat := by
          push_cast at hlt2; omega
        rw [hA, ← Nat.div_eq_sub_div hstep hge]
        rw [List.range_succ_eq_map, List.map_cons, List.map_map]
        congr 1
        · omega
        · apply List.map_congr_left
          intro k _
          simp only [Function.comp_apply, Nat.succ_eq_add_one]
          ring
      · rw [if_neg hlt2, if_pos hlt]
        have hsmall : (stop - 1 - (start : Int)).toNat < step := by
          push_cast at hlt2; omega
        rw [Nat.div_eq_of_lt hsmall]
        rw [show List.range 1 = [0] from rfl]
        simp
    · rw [pyRangeGo]
      rw [if_neg (by tauto)]
      rw [if_neg hlt]
      simp

/-- The window-start list of the program's loop, in closed form. -/
theorem pyRange_spec (stop : Int) (step : Nat) (hstep : 0 < step) :
    pyRange stop step =
      (List.range (if 0 < stop then (stop - 1).toNat / step + 1 else 0)).map
        (fun k => k * step) := by
  rw [pyRange, pyRangeGo_spec step hstep stop.toNat 0 stop (by omega)]
  simp

/-- Closed form of the engine: for a positive step, the three output lists
are images of `List.range n`, where `n` is the number of produced windows
and row `k` describes the window starting at `k * step_size`. -/
theorem calculate_stats_eq (s : List Char) (W S : Nat) (hS : 0 < S) :
    calculate_stats s W S =
      ((List.range (if W ≤ s.length then (s.length - W) / S + 1 else 0)).map
          (fun k => k * S + W / 2),
       (List.range (if W ≤ s.length then (s.length - W) / S + 1 else 0)).map
          (fun k =>
            gt_total (g_count (window s (k * S) W))
              (t_count (window s (k * S) W)) W),
       (List.range (if W ≤ s.length then (s.length - W) / S + 1 else 0)).map
          (fun k =>
            g_t_ratio (g_count (window s (k * S) W))
              (t_count (window s (k * S) W)))) := by
  rw [calculate_stats]
  rw [pyRange_spec _ _ hS]
  by_cases hW : W ≤ s.length
  · have hc : (0 : Int) < (s.length : Int) - (W : Int) + 1 := by omega
    have hv : ((s.length : Int) - (W : Int) + 1 - 1).toNat = s.length - W := by
      omega
    rw [if_pos hc, hv]
    simp only [if_pos hW, List.map_map]
    rfl
  · have hc : ¬ ((0 : Int) < (s.length : Int) - (W : Int) + 1) := by omega
    rw [if_neg hc]
    simp [hW]

/-- Projection of `calculate_stats_eq` onto the positions list. -/
theorem calculate_stats_positions (s : List Char) (W S : Nat) (hS : 0 < S) :
    (calculate_stats s W S).1 =
      (List.range (if W ≤ s.length then (s.length - W) / S + 1 else 0)).map
        (fun k => k * S + W / 2) := by
  rw [calculate_stats_eq s W S hS]

/-- Projection of `calculate_stats_eq` onto the G+T fraction list. -/
theorem calculate_stats_totals (s : List Char) (W S : Nat) (hS : 0 < S) :
    (calculate_stats s W S).2.1 =
      (List.range (if W ≤ s.length then (s.length - W) / S + 1 else 0)).map
        (fun k =>
          gt_total (g_count (window s (k * S) W))
            (t_count (window s (k * S) W)) W) := by
  rw [calculate_stats_eq s W S hS]

/-- Projection of `calculate_stats_eq` onto the G/T ratio list. -/
theorem calculate_stats_ratios (s : List Char) (W S : Nat) (hS : 0 < S) :
    (calculate_stats s W S).2.2 =
      (List.range (if W ≤ s.length then (s.length - W) / S + 1 else 0)).map
        (fun k =>
          g_t_ratio (g_count (window s (k * S) W))
            (t_count (window s (k * S) W))) := by
  rw [calculate_stats_eq s W S hS]

/-- Indexing an image of `List.range`. -/
theorem get_range_map {α : Type} (f : Nat → α) {n k : Nat}
    (hk : k < ((List.range n).map f).length) :
    ((List.range n).map f).get ⟨k, hk⟩ = f k := by
  rw [List.get_eq_getElem]
  simp

/-- Transporting `List.get` along a list equality. -/
theorem get_of_list_eq {α : Type} {l l' : List α} (h : l = l') (k : Nat)
    (hk : k < l.length) (hk' : k < l'.length) :
    l.get ⟨k, hk⟩ = l'.get ⟨k, hk'⟩ := by
  subst h
  rfl

/-- A window never holds more than `window_size` symbols. -/
theorem length_window_le (s : List Char) (i W : Nat) :
    (window s i W).length ≤ W := by
  simp [window]

/-- A window that fits inside the sequence holds exactly `window_size`
symbols. -/
theorem length_window (s : List Char) (i W : Nat) (h : i + W ≤ s.length) :
    (window s i W).length = W := by
  simp [window]
  omega

/-- The G count and the T count together never exceed the length of the
counted list, `'G'` and `'T'` being distinct symbols. -/
theorem g_count_add_t_count_le (l : List Char) :
    g_count l + t_count l ≤ l.length := by
  induction l with
  | nil => simp [g_count, t_count]
  | cons a l ih =>
    simp only [g_count, t_count, List.count_cons, List.length_cons] at ih ⊢
    rcases eq_or_ne a 'G' with h1 | h1 <;> rcases eq_or_ne a 'T' with h2 | h2 <;>
      simp [h1, h2] <;> omega

/-- Every produced window start `k * S` keeps the window inside the
sequence. -/
theorem start_fits (N W S k : Nat) (hW : W ≤ N)
    (hk : k < (N - W) / S + 1) : k * S + W ≤ N := by
  have h1 : k ≤ (N - W) / S := by omega
  have h2 : k * S ≤ ((N - W) / S) * S := Nat.mul_le_mul_right S h1
  have h3 := Nat.div_mul_le_self (N - W) S
  omega

/-- The fatal validation exits of `main`, one per `sys.exit(1)` site. -/
inductive MainError where
  | fileNotFound
  | stepExceedsWindow
  | startNegative
  | endExceeds
  | startNotLtEnd
deriving DecidableEq

/-- Python `start_pos = (args.start - 1) if args.start is not None else 0`. -/
def start_pos (start? : Option Int) : Int :=
  match start? with
  | some s => s - 1
  | none => 0

/-- Python `end_pos = args.end if args.end is not None else len(sequence)`. -/
def end_pos (end? : Option Int) (seq_length : Nat) : Int :=
  match end? with
  | some e => e
  | none => (seq_length : Int)

/-- The validation sequence of `main`, in program order: the existence check
on the input file, the step-versus-window check, then — after the start/end
defaults are resolved — the negative-start, end-past-length and
start-not-less-than-end checks.  Each `sys.exit(1)` with its stderr message
is modelled by the corresponding error; success carries the 0-based
`(start_pos, end_pos)` pair used to subset the sequence. -/
def main_validate (file_exists : Bool) (window step : Int)
    (start? end? : Option Int) (seq_length : Nat) : Except MainError (Nat × Nat) :=
  if file_exists = false then Except.error MainError.fileNotFound
  else if window < step then Except.error MainError.stepExceedsWindow
  else if start_pos start? < 0 then Except.error MainError.startNegative
  else if (seq_length : Int) < end_pos end? seq_length then
    Except.error MainError.endExceeds
  else if end_pos end? seq_length ≤ start_pos start? then
    Except.error MainError.startNotLtEnd
  else Except.ok ((start_pos start?).toNat, (end_pos end? seq_length).toNat)

/-- The computational pipeline of `main` after argument parsing, for the
natural window and step sizes the program's defaults and documented CLI
contract use: validate, subset the sequence to `sequence[start:end]`, run
the engine, and shift the reported positions back by the subrange start.
The three parallel output lists are the data handed to the CSV writer and
plotter; a validation failure produces no output at all. -/
def main_run (file_exists : Bool) (window step : Nat)
    (start? end? : Option Int) (sequence : List Char) :
    Except MainError (List Nat × List ℚ × List ℚ) :=
  match main_validate file_exists (window : Int) (step : Int) start? end?
      sequence.length with
  | Except.error e => Except.error e
  | Except.ok (a, b) =>
    let sub := (sequence.take b).drop a
    let r := calculate_stats sub window step
    Except.ok (r.1.map (fun p => p + a), r.2.1, r.2.2)

/-- The example sequence "GGTTAAGG" of the spec's worked example. -/
def seqEx : List Char := ['G', 'G', 'T', 'T', 'A', 'A', 'G', 'G']

/-- C1: for every sequence of length `N ≥ W`, window size `W` and step `S`
with `1 ≤ S ≤ W`, the engine produces exactly `(N - W) / S + 1` rows — one
per window start `0, S, 2S, …` up to the largest multiple of `S` not
exceeding `N - W` — and the three output lists all have this length. -/
theorem C1_row_count (s : List Char) (W S : Nat) (hS : 1 ≤ S) (hSW : S ≤ W)
    (hN : W ≤ s.length) :
    (calculate_stats s W S).1.length = (s.length - W) / S + 1 ∧
    (calculate_stats s W S).2.1.length = (s.length - W) / S + 1 ∧
    (calculate_stats s W S).2.2.length = (s.length - W) / S + 1 ∧
    (calculate_stats s W S).1 =
      (List.range ((s.length - W) / S + 1)).map (fun k => k * S + W / 2) := by
  rw [calculate_stats_eq s W S hS]
  simp [hN]

/-- Witness for C1 on the spec's example "GGTTAAGG" with `W = 4`, `S = 2`. -/
theorem C1_row_count_witness :
    (calculate_stats seqEx 4 2).1.length = (seqEx.length - 4) / 2 + 1 ∧
    (calculate_stats seqEx 4 2).2.1.length = (seqEx.length - 4) / 2 + 1 ∧
    (calculate_stats seqEx 4 2).2.2.length = (seqEx.length - 4) / 2 + 1 ∧
    (calculate_stats seqEx 4 2).1 =
      (List.range ((seqEx.length - 4) / 2 + 1)).map (fun k => k * 2 + 4 / 2) :=
  C1_row_count seqEx 4 2 (by decide) (by decide) (by decide)

/-- C4: the `k`-th reported position is the start index `k * S` plus
`W / 2` under integer floor division, in 0-based sequence-local
coordinates. -/
theorem C4_position_midpoint (s : List Char) (W S : Nat) (hS : 0 < S)
    (k : Nat) (hk : k < (calculate_stats s W S).1.length) :
    (calculate_stats s W S).1.get ⟨k, hk⟩ = k * S + W / 2 := by
  have he := calculate_stats_positions s W S hS
  have hk' : k < ((List.range (if W ≤ s.length then (s.length - W) / S + 1
      else 0)).map (fun j => j * S + W / 2)).length := by
    rw [← he]; exact hk
  rw [get_of_list_eq he k hk hk', get_range_map]

/-- Witness for C4 on the example at row 1: position `1 * 2 + 4 / 2`. -/
theorem C4_position_midpoint_witness :
    (calculate_stats seqEx 4 2).1.get ⟨1, by decide⟩ = 1 * 2 + 4 / 2 :=
  C4_position_midpoint seqEx 4 2 (by decide) 1 (by decide)

/-- C6: a sequence shorter than the window (including the empty sequence)
yields three empty output lists, a valid non-error outcome of the total
engine function. -/
theorem C6_short_sequence_empty (s : List Char) (W S : Nat) (h1 : 1 ≤ S)
    (h2 : S ≤ W) (hN : s.length < W) :
    calculate_stats s W S = ([], [], []) := by
  rw [calculate_stats_eq s W S h1]
  simp [Nat.not_le.mpr hN]

/-- Witness for C6 on a length-1 sequence with `W = 2`, `S = 1`. -/
theorem C6_short_sequence_empty_witness :
    calculate_stats ['A'] 2 1 = ([], [], []) :=
  C6_short_sequence_empty ['A'] 2 1 (by decide) (by decide) (by decide)

/-- Indexing the ratio list: row `k` carries the guarded ratio of the
window starting at `k * S`. -/
theorem ratios_get (s : List Char) (W S : Nat) (hS : 0 < S) (k : Nat)
    (hk : k < (calculate_stats s W S).2.2.length) :
    (calculate_stats s W S).2.2.get ⟨k, hk⟩ =
      g_t_ratio (g_count (window s (k * S) W)) (t_count (window s (k * S) W)) := by
  have he := calculate_stats_ratios s W S hS
  have hk' : k < ((List.range (if W ≤ s.length then (s.length - W) / S + 1
      else 0)).map (fun j =>
        g_t_ratio (g_count (window s (j * S) W))
          (t_count (window s (j * S) W)))).length := by
    rw [← he]; exact hk
  rw [get_of_list_eq he k hk hk', get_range_map]

/-- Indexing the fraction list: row `k` carries the G+T fraction of the
window starting at `k * S`. -/
theorem totals_get (s : List Char) (W S : Nat) (hS : 0 < S) (k : Nat)
    (hk : k < (calculate_stats s W S).2.1.length) :
    (calculate_stats s W S).2.1.get ⟨k, hk⟩ =
      gt_total (g_count (window s (k * S) W)) (t_count (window s (k * S) W))
        W := by
  have he := calculate_stats_totals s W S hS
  have hk' : k < ((List.range (if W ≤ s.length then (s.length - W) / S + 1
      else 0)).map (fun j =>
        gt_total (g_count (window s (j * S) W))
          (t_count (window s (j * S) W)) W)).length := by
    rw [← he]; exact hk
  rw [get_of_list_eq he k hk hk', get_range_map]

/-- C2: every produced ratio is `0` when the window's T count is zero and
exactly `countG / countT` otherwise; the zero-denominator case is a defined
fallback value of the total function, not an error. -/
theorem C2_ratio_guard (s : List Char) (W S : Nat) (hS : 0 < S) (k : Nat)
    (hk : k < (calculate_stats s W S).2.2.length) :
    (t_count (window s (k * S) W) = 0 →
      (calculate_stats s W S).2.2.get ⟨k, hk⟩ = 0) ∧
    (0 < t_count (window s (k * S) W) →
      (calculate_stats s W S).2.2.get ⟨k, hk⟩ =
        (g_count (window s (k * S) W) : ℚ) /
          (t_count (window s (k * S) W) : ℚ)) := by
  rw [ratios_get s W S hS k hk]
  constructor
  · intro ht
    rw [g_t_ratio, ht]
    simp
  · intro ht
    rw [g_t_ratio, if_pos ht]

/-- Witness for C2 on the example at row 2: the window "AAGG" has no T, so
the ratio is the fallback `0`; the T-positive branch holds vacuously at
this row via the same instantiation. -/
theorem C2_ratio_guard_witness :
    (t_count (window seqEx (2 * 2) 4) = 0 →
      (calculate_stats seqEx 4 2).2.2.get ⟨2, by decide⟩ = 0) ∧
    (0 < t_count (window seqEx (2 * 2) 4) →
      (calculate_stats seqEx 4 2).2.2.get ⟨2, by decide⟩ =
        (g_count (window seqEx (2 * 2) 4) : ℚ) /
          (t_count (window seqEx (2 * 2) 4) : ℚ)) :=
  C2_ratio_guard seqEx 4 2 (by decide) 2 (by decide)

/-- C3: every produced fraction equals `(countG + countT) / W` for the
case-sensitive counts of the literal symbols in the window, and lies in
`[0, 1]`. -/
theorem C3_fraction_bounds (s : List Char) (W S : Nat) (hS : 0 < S)
    (hW : 0 < W) (k : Nat)
    (hk : k < (calculate_stats s W S).2.1.length) :
    (calculate_stats s W S).2.1.get ⟨k, hk⟩ =
      ((g_count (window s (k * S) W) + t_count (window s (k * S) W) : Nat) : ℚ)
        / (W : ℚ) ∧
    0 ≤ (calculate_stats s W S).2.1.get ⟨k, hk⟩ ∧
    (calculate_stats s W S).2.1.get ⟨k, hk⟩ ≤ 1 := by
  rw [totals_get s W S hS k hk]
  have hle : g_count (window s (k * S) W) + t_count (window s (k * S) W) ≤ W :=
    le_trans (g_count_add_t_count_le _) (length_window_le s _ W)
  refine ⟨rfl, ?_, ?_⟩
  · rw [gt_total]
    positivity
  · rw [gt_total]
    rw [div_le_one (by exact_mod_cast hW)]
    exact_mod_cast hle

/-- Witness for C3 on the example at row 0: the window "GGTT" gives the
fraction `(2 + 2) / 4`, which lies in `[0, 1]`. -/
theorem C3_fraction_bounds_witness :
    (calculate_stats seqEx 4 2).2.1.get ⟨0, by decide⟩ =
      ((g_count (window seqEx (0 * 2) 4) + t_count (window seqEx (0 * 2) 4) :
        Nat) : ℚ) / (4 : ℚ) ∧
    0 ≤ (calculate_stats seqEx 4 2).2.1.get ⟨0, by decide⟩ ∧
    (calculate_stats seqEx 4 2).2.1.get ⟨0, by decide⟩ ≤ 1 :=
  C3_fraction_bounds seqEx 4 2 (by decide) (by decide) 0 (by decide)

/-- C10: every produced ratio lies in `[0, W - 1]`: a window holds at most
`W` symbols, so a positive T count forces `countG ≤ W - countT` and hence
`countG / countT ≤ W - 1`, while a zero T count gives the fallback `0`. -/
theorem C10_ratio_bounds (s : List Char) (W S : Nat) (hS : 0 < S)
    (hW : 0 < W) (k : Nat)
    (hk : k < (calculate_stats s W S).2.2.length) :
    0 ≤ (calculate_stats s W S).2.2.get ⟨k, hk⟩ ∧
    (calculate_stats s W S).2.2.get ⟨k, hk⟩ ≤ (W : ℚ) - 1 := by
  rw [ratios_get s W S hS k hk]
  have hle : g_count (window s (k * S) W) + t_count (window s (k * S) W) ≤ W :=
    le_trans (g_count_add_t_count_le _) (length_window_le s _ W)
  have hW1 : (1 : ℚ) ≤ (W : ℚ) := by exact_mod_cast hW
  rw [g_t_ratio]
  by_cases ht : 0 < t_count (window s (k * S) W)
  · rw [if_pos ht]
    have ht1 : (1 : ℚ) ≤ (t_count (window s (k * S) W) : ℚ) := by
      exact_mod_cast ht
    have hsum : (g_count (window s (k * S) W) : ℚ) +
        (t_count (window s (k * S) W) : ℚ) ≤ (W : ℚ) := by exact_mod_cast hle
    constructor
    · positivity
    · rw [div_le_iff (by linarith)]
      have key : ((W : ℚ) - 1) * 1 ≤
          ((W : ℚ) - 1) * (t_count (window s (k * S) W) : ℚ) :=
        mul_le_mul_of_nonneg_left ht1 (by linarith)
      linarith
  · rw [if_neg ht]
    exact ⟨le_refl 0, by linarith⟩

/-- Witness for C10 on the example at row 0: the ratio of window "GGTT"
lies in `[0, 3]`. -/
theorem C10_ratio_bounds_witness :
    0 ≤ (calculate_stats seqEx 4 2).2.2.get ⟨0, by decide⟩ ∧
    (calculate_stats seqEx 4 2).2.2.get ⟨0, by decide⟩ ≤ (4 : ℚ) - 1 :=
  C10_ratio_bounds seqEx 4 2 (by decide) (by decide) 0 (by decide)

/-- Indexing the positions list: row `k` reports the midpoint of the
window starting at `k * S`. -/
theorem positions_get (s : List Char) (W S : Nat) (hS : 0 < S) (k : Nat)
    (hk : k < (calculate_stats s W S).1.length) :
    (calculate_stats s W S).1.get ⟨k, hk⟩ = k * S + W / 2 := by
  have he := calculate_stats_positions s W S hS
  have hk' : k < ((List.range (if W ≤ s.length then (s.length - W) / S + 1
      else 0)).map (fun j => j * S + W / 2)).length := by
    rw [← he]; exact hk
  rw [get_of_list_eq he k hk hk', get_range_map]

/-- When validation succeeds with the pair `(a, b)`, the pipeline runs the
engine on `sequence[a:b]` and shifts the positions by `a`. -/
theorem main_run_ok (f : Bool) (W S : Nat) (st en : Option Int)
    (q : List Char) (a b : Nat)
    (hv : main_validate f (W : Int) (S : Int) st en q.length =
      Except.ok (a, b)) :
    main_run f W S st en q =
      Except.ok
        (((calculate_stats ((q.take b).drop a) W S).1).map (fun p => p + a),
         (calculate_stats ((q.take b).drop a) W S).2.1,
         (calculate_stats ((q.take b).drop a) W S).2.2) := by
  simp only [main_run]
  rw [hv]

/-- When validation fails, the pipeline propagates the error and produces
no output lists. -/
theorem main_run_error (f : Bool) (W S : Nat) (st en : Option Int)
    (q : List Char) (e : MainError)
    (hv : main_validate f (W : Int) (S : Int) st en q.length =
      Except.error e) :
    main_run f W S st en q = Except.error e := by
  simp only [main_run]
  rw [hv]

/-- C5: consecutive reported positions differ by exactly `S`, and whenever
the full pipeline succeeds, every finally reported position is the position
computed on the trimmed subsequence `sequence[a:b]` plus the constant
0-based subrange start `a` delivered by validation. -/
theorem C5_spacing_and_subrange (s : List Char) (W S : Nat) (hS : 0 < S) :
    (∀ k (hk : k + 1 < (calculate_stats s W S).1.length),
      (calculate_stats s W S).1.get ⟨k + 1, hk⟩ -
        (calculate_stats s W S).1.get ⟨k, Nat.lt_of_succ_lt hk⟩ = S) ∧
    (∀ (f : Bool) (st en : Option Int) (q : List Char)
        (out : List Nat × List ℚ × List ℚ),
      main_run f W S st en q = Except.ok out →
      ∃ a b, main_validate f (W : Int) (S : Int) st en q.length =
          Except.ok (a, b) ∧
        out.1 = ((calculate_stats ((q.take b).drop a) W S).1).map
          (fun p => p + a)) := by
  constructor
  · intro k hk
    rw [positions_get s W S hS (k + 1) hk,
      positions_get s W S hS k (Nat.lt_of_succ_lt hk), Nat.succ_mul]
    generalize k * S = m
    omega
  · intro f st en q out h
    rcases hv : main_validate f (W : Int) (S : Int) st en q.length with e | p
    · rw [main_run_error f W S st en q e hv] at h
      exact absurd h (by simp)
    · obtain ⟨a, b⟩ := p
      rw [main_run_ok f W S st en q a b hv] at h
      have hx := Except.ok.inj h
      exact ⟨a, b, rfl, by rw [← hx]⟩

/-- Witness for C5 with `W = 4`, `S = 2`: spacing on the example sequence,
and the subrange round-trip of the spec's example — start 3, end 7
(1-based) on a length-10 sequence. -/
theorem C5_spacing_and_subrange_witness :
    ((∀ k (hk : k + 1 < (calculate_stats seqEx 4 2).1.length),
      (calculate_stats seqEx 4 2).1.get ⟨k + 1, hk⟩ -
        (calculate_stats seqEx 4 2).1.get ⟨k, Nat.lt_of_succ_lt hk⟩ = 2) ∧
    (∀ (f : Bool) (st en : Option Int) (q : List Char)
        (out : List Nat × List ℚ × List ℚ),
      main_run f 4 2 st en q = Except.ok out →
      ∃ a b, main_validate f (4 : Int) (2 : Int) st en q.length =
          Except.ok (a, b) ∧
        out.1 = ((calculate_stats ((q.take b).drop a) 4 2).1).map
          (fun p => p + a))) ∧
    main_run true 4 2 (some 3) (some 7) (List.replicate 10 'G') =
      Except.ok
        (((calculate_stats (((List.replicate 10 'G').take 7).drop 2) 4 2).1).map
            (fun p => p + 2),
         (calculate_stats (((List.replicate 10 'G').take 7).drop 2) 4 2).2.1,
         (calculate_stats (((List.replicate 10 'G').take 7).drop 2) 4 2).2.2) :=
  ⟨C5_spacing_and_subrange seqEx 4 2 (by decide),
   main_run_ok true 4 2 (some 3) (some 7) (List.replicate 10 'G') 2 7 rfl⟩

/-- C7 counterexample: window size `0` and step size `-1` violate the
claimed invariants `W ≥ 1` and `1 ≤ S ≤ W`, yet validation accepts them —
the code checks only `step > window` — so the windowing code is reached
with them. -/
theorem C7_counterexample :
    main_validate true 0 (-1) none none 10 = Except.ok (0, 10) ∧
    ¬ ((1 : Int) ≤ 0 ∧ (1 : Int) ≤ -1) :=
  ⟨rfl, by decide⟩

/-- C7 (amended): before any windowing begins the program enforces only
that the input file exists and that the step size does not exceed the
window size; a run that reaches the engine therefore has `S ≤ W`, and any
`S > W` is rejected up front, but neither `W ≥ 1` nor `S ≥ 1` is
checked. -/
theorem C7_step_check (w st : Int) (s? e? : Option Int) (n : Nat) :
    (∀ (f : Bool) (p : Nat × Nat),
      main_validate f w st s? e? n = Except.ok p → f = true ∧ st ≤ w) ∧
    (w < st →
      main_validate true w st s? e? n =
        Except.error MainError.stepExceedsWindow) := by
  constructor
  · intro f p h
    cases f with
    | false => simp [main_validate] at h
    | true =>
      refine ⟨rfl, ?_⟩
      by_contra hw
      push_neg at hw
      simp [main_validate, hw] at h
  · intro hw
    simp [main_validate, hw]

/-- Witness for C7 (amended): the default parameters `W = 100`, `S = 25`
pass validation on an 8-symbol sequence, and `W = 20`, `S = 30` is
rejected with the step error. -/
theorem C7_step_check_witness :
    (true = true ∧ (25 : Int) ≤ 100) ∧
    main_validate true 20 30 none none 5 =
      Except.error MainError.stepExceedsWindow :=
  ⟨(C7_step_check 100 25 none none 8).1 true (0, 8) rfl,
   (C7_step_check 20 30 none none 5).2 (by decide)⟩

/-- C8: each of the five input-validation failures — missing file, step
exceeding window, negative converted start, end beyond the sequence
length, start not below end — terminates the run with the corresponding
fatal error before the engine ever runs, so no output lists (and hence no
CSV rows or plot data) are produced. -/
theorem C8_validation_failures (W S : Nat) (st en : Option Int)
    (q : List Char) :
    main_run false W S st en q = Except.error MainError.fileNotFound ∧
    ((W : Int) < (S : Int) →
      main_run true W S st en q = Except.error MainError.stepExceedsWindow) ∧
    ((S : Int) ≤ (W : Int) → start_pos st < 0 →
      main_run true W S st en q = Except.error MainError.startNegative) ∧
    ((S : Int) ≤ (W : Int) → 0 ≤ start_pos st →
      (q.length : Int) < end_pos en q.length →
      main_run true W S st en q = Except.error MainError.endExceeds) ∧
    ((S : Int) ≤ (W : Int) → 0 ≤ start_pos st →
      end_pos en q.length ≤ (q.length : Int) →
      end_pos en q.length ≤ start_pos st →
      main_run true W S st en q = Except.error MainError.startNotLtEnd) := by
  refine ⟨?_, ?_, ?_, ?_, ?_⟩
  · exact main_run_error false W S st en q MainError.fileNotFound
      (by simp [main_validate])
  · intro h1
    exact main_run_error true W S st en q MainError.stepExceedsWindow
      (by simp [main_validate, h1])
  · intro h1 h2
    exact main_run_error true W S st en q MainError.startNegative
      (by simp [main_validate, not_lt.mpr h1, h2])
  · intro h1 h2 h3
    exact main_run_error true W S st en q MainError.endExceeds
      (by simp [main_validate, not_lt.mpr h1, not_lt.mpr h2, h3])
  · intro h1 h2 h3 h4
    exact main_run_error true W S st en q MainError.startNotLtEnd
      (by simp [main_validate, not_lt.mpr h1, not_lt.mpr h2,
        not_lt.mpr h3, h4])

/-- Witness for C8: one concrete run per failure, on small inputs. -/
theorem C8_validation_failures_witness :
    main_run false 4 2 none none seqEx = Except.error MainError.fileNotFound ∧
    main_run true 20 30 none none seqEx =
      Except.error MainError.stepExceedsWindow ∧
    main_run true 4 2 (some 0) none seqEx =
      Except.error MainError.startNegative ∧
    main_run true 4 2 none (some 100) seqEx =
      Except.error MainError.endExceeds ∧
    main_run true 4 2 (some 6) (some 5) seqEx =
      Except.error MainError.startNotLtEnd :=
  ⟨(C8_validation_failures 4 2 none none seqEx).1,
   (C8_validation_failures 20 30 none none seqEx).2.1 (by decide),
   (C8_validation_failures 4 2 (some 0) none seqEx).2.2.1 (by decide)
     (by decide),
   (C8_validation_failures 4 2 none (some 100) seqEx).2.2.2.1 (by decide)
     (by decide) (by decide),
   (C8_validation_failures 4 2 (some 6) (some 5) seqEx).2.2.2.2 (by decide)
     (by decide) (by decide) (by decide)⟩

/-- C9: loading an empty sequence with neither `--start` nor `--end`
defaults the range to `start_pos = 0`, `end_pos = 0`, so the run dies with
the start-not-less-than-end validation error instead of producing an empty
output table. -/
theorem C9_empty_sequence_fatal (W S : Nat) (h : S ≤ W) :
    main_run true W S none none [] =
      Except.error MainError.startNotLtEnd := by
  have hnw : ¬ ((W : Int) < (S : Int)) := by exact_mod_cast not_lt.mpr h
  exact main_run_error true W S none none [] MainError.startNotLtEnd
    (by simp [main_validate, start_pos, end_pos, hnw])

/-- Witness for C9 with the program's default parameters. -/
theorem C9_empty_sequence_fatal_witness :
    main_run true 100 25 none none [] =
      Except.error MainError.startNotLtEnd :=
  C9_empty_sequence_fatal 100 25 (by decide)
